import Mathlib

/-!
Shallow embedding of the VoIP softphone call-session coordinator
(`src/frontend/web/src/store/softphone.ts`) and the signaling transport
wrapper (`src/frontend/web/src/lib/signaling/client.ts`).

The store's fields, the module-level singletons (`signalingClient`, `peer`,
`queuedSignals`) and the observable side effects (transport sends, event-log
entries, media-track stops) are collected into one `World` record.  Media
streams live in a heap (`streams`) indexed by `Nat`, so that a stream that the
store no longer references can still be inspected for whether its tracks were
stopped.  Peer-negotiation instances likewise live in a heap (`peers`) with
the module variable `peer` modelled as `peerRef : Option Nat`, so instances
that were overwritten without being destroyed remain observable.
`crypto.randomUUID()` and `Date.now()` are modelled by the `fresh` counter.
Operations that can throw (`hangup`, via `SignalingClient.send`) return
`Except String World`; a thrown exception leaves the store unmutated because
the send is the first effect of `hangup`.
-/

namespace Softphone

/-- Call lifecycle states of the store (`CallState` union in softphone.ts). -/
inductive CallState
  | idle
  | connecting
  | ringing
  | inCall
  | ended
  | error
  deriving DecidableEq, Inhabited

/-- Signaling connection status (`SignalingStatus` union in softphone.ts). -/
inductive SigStatus
  | disconnected
  | connecting
  | connected
  deriving DecidableEq, Inhabited

/-- One entry of the bounded event log (`LogEntry` in softphone.ts);
`id` and `timestamp` come from the `fresh` counter. -/
structure LogEntry where
  id : Nat
  message : String
  timestamp : Nat
  deriving DecidableEq, Inhabited

/-- Opaque SDP/ICE negotiation payload (`SignalData` from simple-peer). -/
abbrev SignalData := Nat

/-- A media stream is its list of tracks; a track is its stopped flag
(`true` once `track.stop()` has been called). -/
abbrev MediaStream := List Bool

/-- A simple-peer negotiation instance.  `received` records the payloads
injected via `.signal(...)` in order; `destroyed` / `listenersDetached`
record `.destroy()` / `.removeAllListeners()`. -/
structure Peer where
  initiator : Bool
  callId : String
  received : List SignalData
  destroyed : Bool
  listenersDetached : Bool
  deriving DecidableEq, Inhabited

/-- Outbound transport messages produced by `signalingClient.send`. -/
inductive OutMsg
  | signalOut (callId : String) (data : SignalData)
  | callInitiate (callId : String) (toNumber : String)
  | callAnswer (callId : String)
  | callEnded (callId : String)
  deriving DecidableEq, Inhabited

/-- The whole observable state: store fields (lines 145-154 of softphone.ts),
module-level singletons, heaps for streams and peers, and the trace of
transport sends. -/
structure World where
  callState : CallState
  signalingStatus : SigStatus
  dialNumber : String
  incomingNumber : Option String
  callId : Option String
  statusMessage : Option String
  error : Option String
  eventLog : List LogEntry
  localStream : Option Nat
  remoteStream : Option Nat
  clientPresent : Bool
  socketReady : Bool
  peerRef : Option Nat
  queuedSignals : List SignalData
  streams : List MediaStream
  peers : List Peer
  sent : List OutMsg
  fresh : Nat
  deriving DecidableEq, Inhabited

/-- The store's initial state (the literal given to `create` in softphone.ts),
with empty heaps and no signaling client. -/
def initWorld : World :=
  { callState := CallState.idle
    signalingStatus := SigStatus.disconnected
    dialNumber := ""
    incomingNumber := none
    callId := none
    statusMessage := none
    error := none
    eventLog := []
    localStream := none
    remoteStream := none
    clientPresent := false
    socketReady := false
    peerRef := none
    queuedSignals := []
    streams := []
    peers := []
    sent := []
    fresh := 0 }

/-- JavaScript `array.slice(-n)`: the last `min n length` elements. -/
def sliceLast (n : Nat) (l : List α) : List α :=
  l.drop (l.length - n)

/-- `appendLog` (softphone.ts lines 56-67): push a timestamped entry,
keeping only the most recent 49 old entries (`eventLog.slice(-49)`). -/
def appendLog (w : World) (message : String) : World :=
  let entry : LogEntry := { id := w.fresh, message := message, timestamp := w.fresh }
  { w with eventLog := sliceLast 49 w.eventLog ++ [entry], fresh := w.fresh + 1 }

/-- `stopStream` body (softphone.ts lines 69-71): stop every track. -/
def stopStream (s : MediaStream) : MediaStream :=
  s.map (fun _ => true)

/-- Stop every track of the stream at heap index `i` (out-of-range: no-op). -/
def setStopped : List MediaStream → Nat → List MediaStream
  | [], _ => []
  | s :: rest, 0 => stopStream s :: rest
  | s :: rest, Nat.succ n => s :: setStopped rest n

/-- `stopStream(streamOrNull)`: the optional-chaining call sites
`stopStream(localStream)` / `stopStream(remoteStream)`. -/
def stopOpt (streams : List MediaStream) : Option Nat → List MediaStream
  | none => streams
  | some i => setStopped streams i

/-- `peer.removeAllListeners(); peer.destroy()` applied to heap index `i`. -/
def destroyAt : List Peer → Nat → List Peer
  | [], _ => []
  | p :: ps, 0 => { p with destroyed := true, listenersDetached := true } :: ps
  | p :: ps, Nat.succ n => p :: destroyAt ps n

/-- `instance.signal(data)` applied to heap index `i`. -/
def deliverAt : List Peer → Nat → SignalData → List Peer
  | [], _, _ => []
  | p :: ps, 0, d => { p with received := p.received ++ [d] } :: ps
  | p :: ps, Nat.succ n, d => p :: deliverAt ps n d

/-- `peer?.signal(data)`: deliver to the referenced instance, no-op when the
module variable `peer` is null. -/
def peerSignal (w : World) (d : SignalData) : World :=
  match w.peerRef with
  | none => w
  | some i => { w with peers := deliverAt w.peers i d }

/-- `queuedSignals.forEach((signal) => peer?.signal(signal)); queuedSignals = []`
(softphone.ts lines 231-232 and 256-257). -/
def flushQueued (w : World) : World :=
  { w.queuedSignals.foldl peerSignal w with queuedSignals := [] }

/-- `cleanupPeer` (softphone.ts lines 130-142): destroy and detach the
referenced peer, stop both streams, null the references, clear the buffer. -/
def cleanupPeer (w : World) : World :=
  let peers :=
    match w.peerRef with
    | none => w.peers
    | some i => destroyAt w.peers i
  let streams := stopOpt (stopOpt w.streams w.localStream) w.remoteStream
  { w with peers := peers, peerRef := none, streams := streams,
           localStream := none, remoteStream := none, queuedSignals := [] }

/-- JavaScript `String.prototype.trim()`: strip whitespace from both ends
(defined over the character list so it evaluates in proofs). -/
def jsTrim (s : String) : String :=
  String.mk (((s.data.dropWhile Char.isWhitespace).reverse.dropWhile
    Char.isWhitespace).reverse)

/-- Modelled message of a failed `getUserMedia` (the environment-supplied
`error.message`; the concrete text does not matter to any claim). -/
def mediaErrMsg : String := "Permission denied"

/-- The message thrown by `SignalingClient.send` when the socket is not in
the OPEN state (client.ts line 106). -/
def sendErrMsg : String := "Signaling socket not connected"

/-- `ensureLocalStream` (softphone.ts lines 73-83): return the existing local
stream if present, otherwise capture one audio track when the environment
grants the microphone (`micOk`), `none` when `getUserMedia` rejects. -/
def ensureLocalStream (w : World) (micOk : Bool) : Option (World × Nat) :=
  match w.localStream with
  | some i => some (w, i)
  | none =>
    if micOk then
      some ({ w with streams := w.streams ++ [[false]],
                     localStream := some w.streams.length }, w.streams.length)
    else
      none

/-- The instance constructed by `createPeer` (softphone.ts lines 85-128); its
listeners are modelled by the `onPeer*` transitions below. -/
def newPeer (initiator : Bool) (callId : String) : Peer :=
  { initiator := initiator, callId := callId, received := [],
    destroyed := false, listenersDetached := false }

/-- The `callId` generated by `crypto.randomUUID()` at counter value `n`. -/
def uuid (n : Nat) : String := "uuid-" ++ toString n

/-- The block shared by dial and answer (softphone.ts lines 230-232 and
255-257): `peer = await createPeer(...)`, then flush the buffered signals
into it and clear the buffer. -/
def attachNewPeer (w : World) (initiator : Bool) (cid : String) : World :=
  let w1 := { w with peers := w.peers ++ [newPeer initiator cid],
                     peerRef := some w.peers.length }
  flushQueued w1

/-- `startOutgoingCall` (softphone.ts lines 210-244).  Guards: signaling
client present with an OPEN socket, then a non-empty trimmed dial number.
The try block acquires the microphone, creates the initiator peer, flushes
the buffered signals and sends `call.initiate`; a `getUserMedia` rejection is
caught and converted into the error state. -/
def startOutgoingCall (w : World) (micOk : Bool) : World :=
  if !(w.clientPresent && w.socketReady) then
    appendLog w "Cannot place call without signaling connection"
  else if jsTrim w.dialNumber == "" then
    appendLog w "Enter a destination number before calling"
  else
    let cid := uuid w.fresh
    let w1 := { w with callState := CallState.connecting,
                       statusMessage := some "Placing call...",
                       callId := some cid, incomingNumber := none,
                       fresh := w.fresh + 1 }
    let w2 := appendLog w1 ("Dialing " ++ w.dialNumber)
    match ensureLocalStream w2 micOk with
    | none =>
      appendLog { w2 with callState := CallState.error,
                          error := some mediaErrMsg,
                          statusMessage := some mediaErrMsg }
        ("Call error: " ++ mediaErrMsg)
    | some (w3, _i) =>
      let w5 := attachNewPeer w3 true cid
      { w5 with sent := w5.sent ++ [OutMsg.callInitiate cid w.dialNumber] }

/-- `acceptIncomingCall` (softphone.ts lines 246-266).  Guard: `callId` set
(no call-state check in the source).  The try block acquires the microphone,
creates the answerer peer, flushes the buffer, then `signalingClient?.send`:
skipped when the client is null, throwing (and caught by the surrounding
try) when the socket is not OPEN, recorded otherwise. -/
def acceptIncomingCall (w : World) (micOk : Bool) : World :=
  match w.callId with
  | none => w
  | some cid =>
    match ensureLocalStream w micOk with
    | none =>
      appendLog { w with callState := CallState.error,
                         error := some mediaErrMsg,
                         statusMessage := some mediaErrMsg }
        ("Answer error: " ++ mediaErrMsg)
    | some (w1, _i) =>
      let w3 := attachNewPeer w1 false cid
      if w3.clientPresent then
        if w3.socketReady then
          { w3 with sent := w3.sent ++ [OutMsg.callAnswer cid],
                    callState := CallState.connecting,
                    statusMessage := some "Answering call..." }
        else
          appendLog { w3 with callState := CallState.error,
                              error := some sendErrMsg,
                              statusMessage := some sendErrMsg }
            ("Answer error: " ++ sendErrMsg)
      else
        { w3 with callState := CallState.connecting,
                  statusMessage := some "Answering call..." }

/-- The unconditional tail of `hangup` (softphone.ts lines 273-276):
`cleanupPeer`, transition to `ended`, clear identifiers, log. -/
def hangupFinish (w : World) : World :=
  let w1 := cleanupPeer w
  let w2 := { w1 with callState := CallState.ended,
                      statusMessage := some "Call ended",
                      callId := none, incomingNumber := none }
  appendLog w2 "Call ended"

/-- `hangup` (softphone.ts lines 268-277).  When `callId` is set,
`signalingClient?.send({type:"call.ended"})` runs first: skipped when the
client is null, throwing (uncaught, so the store is left unmutated) when the
socket is not OPEN.  Only then do cleanup and the `ended` transition run. -/
def hangup (w : World) : Except String World :=
  match w.callId with
  | some cid =>
    if w.clientPresent then
      if w.socketReady then
        Except.ok (hangupFinish { w with sent := w.sent ++ [OutMsg.callEnded cid] })
      else
        Except.error sendErrMsg
    else
      Except.ok (hangupFinish w)
  | none => Except.ok (hangupFinish w)

/-- `disconnectSignaling` (softphone.ts lines 203-208): close and drop the
client, drive status to disconnected. -/
def disconnectSignaling (w : World) : World :=
  { w with clientPresent := false, socketReady := false,
           signalingStatus := SigStatus.disconnected }

/-- Inbound signaling events (the `switch` of `handleSignalingEvent`);
optional fields model absent JSON members. -/
inductive SigEvent
  | callIncoming (callId : Option String) (fromNumber : Option String)
  | callRinging
  | callConnected
  | callEnded
  | callError (message : Option String)
  | signal (data : Option SignalData)
  | presence (message : Option String)
  | other (type_ : String)
  deriving DecidableEq, Inhabited

/-- `handleSignalingEvent` (softphone.ts lines 279-341), case by case in
source order.  The `signal` case drops a falsy `data`, delivers to the live
peer when the module variable is set, and buffers otherwise. -/
def handleSignalingEvent (w : World) (e : SigEvent) : World :=
  match e with
  | SigEvent.callIncoming cid fromNumber =>
    let w1 :=
      match cid with
      | some _ => w
      | none => { w with fresh := w.fresh + 1 }
    let callId := cid.getD (uuid w.fresh)
    let fromS := fromNumber.getD "Unknown"
    let w2 := { w1 with callId := some callId, callState := CallState.ringing,
                        incomingNumber := some fromS,
                        statusMessage := some "Incoming call" }
    appendLog w2 ("Incoming call from " ++ fromS)
  | SigEvent.callRinging =>
    appendLog { w with callState := CallState.ringing,
                       statusMessage := some "Ringing..." }
      "Remote phone ringing"
  | SigEvent.callConnected =>
    appendLog { w with callState := CallState.inCall,
                       statusMessage := some "Call connected" }
      "Call connected"
  | SigEvent.callEnded =>
    let w1 := appendLog w "Remote ended the call"
    let w2 := cleanupPeer w1
    { w2 with callState := CallState.ended,
              statusMessage := some "Call ended by remote",
              callId := none, incomingNumber := none }
  | SigEvent.callError message =>
    let msg := message.getD "Call error"
    let w1 := appendLog w msg
    let w2 := { w1 with callState := CallState.error,
                        statusMessage := some msg, error := some msg }
    cleanupPeer w2
  | SigEvent.signal data =>
    match data with
    | none => w
    | some d =>
      match w.peerRef with
      | some _ => peerSignal w d
      | none => { w with queuedSignals := w.queuedSignals ++ [d] }
  | SigEvent.presence message =>
    appendLog w (message.getD "Presence update")
  | SigEvent.other t =>
    appendLog w ("Unhandled signaling event: " ++ t)

/-- The peer `stream` listener (softphone.ts lines 104-107): attach the
remote stream (a fresh heap allocation with one live track). -/
def onPeerStream (w : World) : World :=
  { w with streams := w.streams ++ [[false]],
           remoteStream := some w.streams.length }

/-- The peer `connect` listener (softphone.ts lines 109-112). -/
def onPeerConnect (w : World) : World :=
  appendLog { w with callState := CallState.inCall,
                     statusMessage := some "Connected" }
    "Peer connection established"

/-- The peer `close` listener (softphone.ts lines 114-116). -/
def onPeerClose (w : World) : World :=
  appendLog w "Peer connection closed"

/-- The peer `error` listener (softphone.ts lines 118-121): set the error
state and message.  Note: it performs no cleanup of streams or the peer. -/
def onPeerError (w : World) (message : String) : World :=
  { w with callState := CallState.error, error := some message,
           statusMessage := some "Call failed" }

/-- Every track of the stream at heap index `i` is stopped (`none`: no
stream was held, vacuously true). -/
def allStoppedAt (streams : List MediaStream) : Option Nat → Bool
  | none => true
  | some i => (streams.getD i []).all (fun b => b)

/-- Media resources were released: both references null, and every track of
the streams previously referenced by `w` is stopped in `w'`. -/
def mediaReleased (w w' : World) : Prop :=
  w'.localStream = none ∧ w'.remoteStream = none ∧
  allStoppedAt w'.streams w.localStream = true ∧
  allStoppedAt w'.streams w.remoteStream = true

/-- User-intent actions of the call-session controller. -/
inductive CtlAct
  | dial (micOk : Bool)
  | answer (micOk : Bool)
  | hang
  deriving DecidableEq, Inhabited

/-- One controller action as a total step: a thrown `hangup` exception
propagates to the caller and leaves the store unchanged. -/
def stepCtl (w : World) : CtlAct → World
  | CtlAct.dial m => startOutgoingCall w m
  | CtlAct.answer m => acceptIncomingCall w m
  | CtlAct.hang =>
    match hangup w with
    | Except.ok w' => w'
    | Except.error _ => w

/-- No live (not-yet-destroyed) peer-negotiation instance exists. -/
def noLivePeer (w : World) : Prop :=
  ∀ j, j < w.peers.length → (w.peers.getD j default).destroyed = true

/-- Every live peer instance is the one the module variable references. -/
def refInv (w : World) : Prop :=
  ∀ j, j < w.peers.length → (w.peers.getD j default).destroyed = false →
    w.peerRef = some j

/-- At most one live peer-negotiation instance exists. -/
def atMostOneLive (w : World) : Prop :=
  ∀ j k, j < w.peers.length → k < w.peers.length →
    (w.peers.getD j default).destroyed = false →
    (w.peers.getD k default).destroyed = false → j = k

/-- The guard under which a controller action is issued in a disciplined
run: `dial`/`answer` only while no live peer instance exists. -/
def ctlGuard (w : World) : CtlAct → Prop
  | CtlAct.dial _ => noLivePeer w
  | CtlAct.answer _ => noLivePeer w
  | CtlAct.hang => True

/-- A run of controller actions in which every `dial`/`answer` is issued
from a state with no live peer instance. -/
inductive CtlRun : World → List CtlAct → World → Prop
  | nil (w : World) : CtlRun w [] w
  | step (w : World) (a : CtlAct) (acts : List CtlAct) (w' : World) :
      ctlGuard w a → CtlRun (stepCtl w a) acts w' → CtlRun w (a :: acts) w'


/-- The post-state of a successful dial transition (softphone.ts lines
223-238), spelled out field by field relative to the pre-state `w`:
`connecting` entered, a fresh `callId`, one `Dialing` log entry, the local
stream present (reused or freshly captured), a live initiator peer holding
exactly the previously buffered payloads, an empty buffer, and a
`call.initiate` send. -/
def dialSuccessResult (w : World) : World :=
  { callState := CallState.connecting
    signalingStatus := w.signalingStatus
    dialNumber := w.dialNumber
    incomingNumber := none
    callId := some (uuid w.fresh)
    statusMessage := some "Placing call..."
    error := w.error
    eventLog := sliceLast 49 w.eventLog ++ [{ id := w.fresh + 1, message := "Dialing " ++ w.dialNumber, timestamp := w.fresh + 1 }]
    localStream := some (w.localStream.getD w.streams.length)
    remoteStream := w.remoteStream
    clientPresent := w.clientPresent
    socketReady := w.socketReady
    peerRef := some w.peers.length
    queuedSignals := []
    streams := if w.localStream.isSome then w.streams else w.streams ++ [[false]]
    peers := w.peers ++ [{ initiator := true, callId := uuid w.fresh, received := w.queuedSignals, destroyed := false, listenersDetached := false }]
    sent := w.sent ++ [OutMsg.callInitiate (uuid w.fresh) w.dialNumber]
    fresh := w.fresh + 2 }

/-- The post-state of a successful answer transition (softphone.ts lines
252-260) when the signaling socket is OPEN: `connecting` entered, the local
stream present, a live answerer peer holding exactly the previously buffered
payloads, an empty buffer, and a `call.answer` send. -/
def answerSuccessResult (w : World) (cid : String) : World :=
  { callState := CallState.connecting
    signalingStatus := w.signalingStatus
    dialNumber := w.dialNumber
    incomingNumber := w.incomingNumber
    callId := w.callId
    statusMessage := some "Answering call..."
    error := w.error
    eventLog := w.eventLog
    localStream := some (w.localStream.getD w.streams.length)
    remoteStream := w.remoteStream
    clientPresent := w.clientPresent
    socketReady := w.socketReady
    peerRef := some w.peers.length
    queuedSignals := []
    streams := if w.localStream.isSome then w.streams else w.streams ++ [[false]]
    peers := w.peers ++ [{ initiator := false, callId := cid, received := w.queuedSignals, destroyed := false, listenersDetached := false }]
    sent := w.sent ++ [OutMsg.callAnswer cid]
    fresh := w.fresh }

/-- A state mid-call with a live local stream whose one track is not
stopped and a live peer: input for exercising the peer error listener. -/
def peerErrorW : World := { initWorld with callState := CallState.inCall, localStream := some 0, streams := [[false]], peerRef := some 0, peers := [newPeer true "call-1"] }

/-- A state mid-call whose signaling client is present but whose socket has
left the OPEN state (for example after a network drop fired `onclose`). -/
def deadSocketW : World := { initWorld with callState := CallState.inCall, callId := some "call-2", clientPresent := true, socketReady := false }

/-- A connected idle state with a dial number entered. -/
def connectedW : World := { initWorld with clientPresent := true, socketReady := true, dialNumber := "100" }

/-- A connected state that is already in a call, with a dial number. -/
def inCallDialW : World := { initWorld with clientPresent := true, socketReady := true, dialNumber := "100", callState := CallState.inCall }

/-- A connected idle (not ringing) state that still carries a callId. -/
def idleWithCallIdW : World := { initWorld with callId := some "call-9", clientPresent := true, socketReady := true }

/-- A mid-call state with a callId and no signaling client. -/
def inCallW : World := { initWorld with callState := CallState.inCall, callId := some "call-3" }

/-- A connected idle state with a dial number and three buffered signal
payloads that arrived before any peer instance existed. -/
def bufferedW : World := { initWorld with clientPresent := true, socketReady := true, dialNumber := "5", queuedSignals := [10, 20, 30] }

end Softphone

namespace SignalingWS

/-- `WebSocket.readyState` values. -/
inductive ReadyState
  | wsConnecting
  | wsOpen
  | wsClosing
  | wsClosed
  deriving DecidableEq, Inhabited

/-- The private state of `SignalingClient` (client.ts): the socket (with its
ready state) and the shared in-flight connection promise, identified by a
token so distinct attempts are distinguishable. -/
structure ClientState where
  socket : Option ReadyState
  connectionPromise : Option Nat
  deriving DecidableEq, Inhabited

/-- What a call to `connect` returns to its caller. -/
inductive ConnectOutcome
  | resolvedImmediately
  | sharedPending (p : Nat)
  | newAttempt (p : Nat)
  deriving DecidableEq, Inhabited

/-- `SignalingClient.connect` (client.ts lines 47-102): resolve immediately
when the socket is OPEN; hand back the in-flight promise when one exists;
resolve immediately outside a browser; otherwise open a new `WebSocket` and
store the new promise.  The returned `Bool` records whether a new transport
was opened. -/
def connect (c : ClientState) (hasWindow : Bool) (freshP : Nat) :
    ConnectOutcome × ClientState × Bool :=
  match c.socket with
  | some ReadyState.wsOpen => (ConnectOutcome.resolvedImmediately, c, false)
  | _ =>
    match c.connectionPromise with
    | some p => (ConnectOutcome.sharedPending p, c, false)
    | none =>
      if !hasWindow then
        (ConnectOutcome.resolvedImmediately, c, false)
      else
        (ConnectOutcome.newAttempt freshP,
          { socket := some ReadyState.wsConnecting, connectionPromise := some freshP },
          true)

end SignalingWS

namespace Softphone

/-! ### List and heap helper lemmas -/

lemma getD_append_lt {α : Type} (l l' : List α) (d : α) :
    ∀ j, j < l.length → (l ++ l').getD j d = l.getD j d := by
  induction l with
  | nil => intro j hj; simp at hj
  | cons a t ih =>
    intro j hj
    cases j with
    | zero => rfl
    | succ n =>
      simp only [List.cons_append, List.getD_cons_succ]
      exact ih n (by simpa using hj)

lemma getD_append_self {α : Type} (l : List α) (a d : α) :
    (l ++ [a]).getD l.length d = a := by
  induction l with
  | nil => rfl
  | cons x t ih => simp [ih]

lemma setStopped_getD_ne (s : List MediaStream) :
    ∀ i j, i ≠ j → (setStopped s j).getD i [] = s.getD i [] := by
  induction s with
  | nil => intro i j _; cases j <;> rfl
  | cons a t ih =>
    intro i j hne
    cases j with
    | zero => cases i with
      | zero => exact absurd rfl hne
      | succ n => rfl
    | succ m => cases i with
      | zero => rfl
      | succ n =>
        simp only [setStopped, List.getD_cons_succ]
        exact ih n m (by simpa using hne)

lemma allStopped_setStopped_self (s : List MediaStream) :
    ∀ i, allStoppedAt (setStopped s i) (some i) = true := by
  induction s with
  | nil => intro i; cases i <;> rfl
  | cons a t ih =>
    intro i
    cases i with
    | zero =>
      simp only [setStopped, allStoppedAt, List.getD_cons_zero, stopStream]
      simp [List.all_eq_true]
    | succ n =>
      simp only [setStopped, allStoppedAt, List.getD_cons_succ]
      simpa [allStoppedAt] using ih n

lemma allStopped_setStopped_mono (s : List MediaStream) (o : Option Nat) (j : Nat)
    (h : allStoppedAt s o = true) : allStoppedAt (setStopped s j) o = true := by
  cases o with
  | none => rfl
  | some i =>
    by_cases hij : i = j
    · subst hij; exact allStopped_setStopped_self s i
    · simp only [allStoppedAt] at h ⊢
      rw [setStopped_getD_ne s i j hij]
      exact h

lemma allStopped_stopOpt_self (s : List MediaStream) (o : Option Nat) :
    allStoppedAt (stopOpt s o) o = true := by
  cases o with
  | none => rfl
  | some i => exact allStopped_setStopped_self s i

lemma allStopped_stopOpt_mono (s : List MediaStream) (o o' : Option Nat)
    (h : allStoppedAt s o = true) : allStoppedAt (stopOpt s o') o = true := by
  cases o' with
  | none => exact h
  | some j => exact allStopped_setStopped_mono s o j h

/-- `cleanupPeer` nulls both stream references and stops every track of the
streams the input world held. -/
lemma cleanupPeer_released (w : World) :
    (cleanupPeer w).localStream = none ∧ (cleanupPeer w).remoteStream = none ∧
    allStoppedAt (cleanupPeer w).streams w.localStream = true ∧
    allStoppedAt (cleanupPeer w).streams w.remoteStream = true := by
  refine ⟨rfl, rfl, ?_, ?_⟩
  · exact allStopped_stopOpt_mono _ _ _ (allStopped_stopOpt_self w.streams w.localStream)
  · exact allStopped_stopOpt_self (stopOpt w.streams w.localStream) w.remoteStream

lemma destroyAt_length (ps : List Peer) : ∀ i, (destroyAt ps i).length = ps.length := by
  induction ps with
  | nil => intro i; rfl
  | cons p t ih => intro i; cases i with
    | zero => rfl
    | succ n => simpa [destroyAt] using ih n

lemma destroyAt_getD_ne (ps : List Peer) :
    ∀ i j, i ≠ j → (destroyAt ps j).getD i default = ps.getD i default := by
  induction ps with
  | nil => intro i j _; cases j <;> rfl
  | cons p t ih =>
    intro i j hne
    cases j with
    | zero => cases i with
      | zero => exact absurd rfl hne
      | succ n => rfl
    | succ m => cases i with
      | zero => rfl
      | succ n =>
        simp only [destroyAt, List.getD_cons_succ]
        exact ih n m (by simpa using hne)

lemma destroyAt_getD_destroyed (ps : List Peer) :
    ∀ i, i < ps.length → ((destroyAt ps i).getD i default).destroyed = true := by
  induction ps with
  | nil => intro i hi; simp at hi
  | cons p t ih =>
    intro i hi
    cases i with
    | zero => rfl
    | succ n =>
      simp only [destroyAt, List.getD_cons_succ]
      exact ih n (by simpa using hi)

lemma deliverAt_length (ps : List Peer) : ∀ i d, (deliverAt ps i d).length = ps.length := by
  induction ps with
  | nil => intro i d; rfl
  | cons p t ih => intro i d; cases i with
    | zero => rfl
    | succ n => simpa [deliverAt] using ih n d

lemma deliverAt_append_self (p : Peer) (d : SignalData) :
    ∀ q, deliverAt (q ++ [p]) q.length d = q ++ [{ p with received := p.received ++ [d] }] := by
  intro q
  induction q with
  | nil => rfl
  | cons x t ih => simpa [deliverAt] using ih

lemma foldl_deliverAt_append (q : List SignalData) :
    ∀ (ps : List Peer) (p : Peer),
      q.foldl (fun acc d => deliverAt acc ps.length d) (ps ++ [p]) =
        ps ++ [{ p with received := p.received ++ q }] := by
  induction q with
  | nil => intro ps p; simp
  | cons d t ih =>
    intro ps p
    simp only [List.foldl_cons, deliverAt_append_self p d ps]
    simpa [List.append_assoc] using ih ps { p with received := p.received ++ [d] }

lemma foldl_peerSignal_none (q : List SignalData) :
    ∀ (w : World), w.peerRef = none → q.foldl peerSignal w = w := by
  induction q with
  | nil => intro w _; rfl
  | cons d t ih =>
    intro w h
    simp only [List.foldl_cons, peerSignal, h]
    exact ih w h

lemma foldl_peerSignal_some (q : List SignalData) :
    ∀ (w : World) (i : Nat), w.peerRef = some i →
      q.foldl peerSignal w =
        { w with peers := q.foldl (fun ps d => deliverAt ps i d) w.peers } := by
  induction q with
  | nil => intro w i _; rfl
  | cons d t ih =>
    intro w i h
    have h1 : peerSignal w d = { w with peers := deliverAt w.peers i d } := by
      simp [peerSignal, h]
    rw [List.foldl_cons, List.foldl_cons, h1,
      ih { w with peers := deliverAt w.peers i d } i h]

/-- Creating and flushing: the new peer receives exactly the buffered
payloads in order, the buffer is emptied, and the module variable points at
the new instance. -/
lemma attachNewPeer_spec (w : World) (initiator : Bool) (cid : String) :
    attachNewPeer w initiator cid =
      { w with
          peers := w.peers ++ [{ initiator := initiator, callId := cid, received := w.queuedSignals, destroyed := false, listenersDetached := false }]
          peerRef := some w.peers.length
          queuedSignals := [] } := by
  have h1 := foldl_peerSignal_some w.queuedSignals
    { w with peers := w.peers ++ [newPeer initiator cid],
             peerRef := some w.peers.length }
    w.peers.length rfl
  simp only [attachNewPeer, flushQueued]
  rw [h1]
  have h2 := foldl_deliverAt_append w.queuedSignals w.peers (newPeer initiator cid)
  simp only [newPeer] at h2 ⊢
  rw [h2]
  simp


/-- Successful dial: with the socket OPEN, a non-empty trimmed number and
the microphone granted, `startOutgoingCall` produces exactly
`dialSuccessResult`. -/
lemma dial_success (w : World) (hc : w.clientPresent = true) (hs : w.socketReady = true)
    (hn : (jsTrim w.dialNumber == "") = false) :
    startOutgoingCall w true = dialSuccessResult w := by
  cases hl : w.localStream with
  | none =>
    simp [startOutgoingCall, dialSuccessResult, ensureLocalStream, appendLog,
      hc, hs, hn, hl, attachNewPeer_spec]
  | some i =>
    simp [startOutgoingCall, dialSuccessResult, ensureLocalStream, appendLog,
      hc, hs, hn, hl, attachNewPeer_spec]

/-- Successful answer: with a callId set, the socket OPEN and the
microphone granted, `acceptIncomingCall` produces exactly
`answerSuccessResult`. -/
lemma answer_success (w : World) (cid : String) (hid : w.callId = some cid)
    (hc : w.clientPresent = true) (hs : w.socketReady = true) :
    acceptIncomingCall w true = answerSuccessResult w cid := by
  cases hl : w.localStream with
  | none =>
    simp [acceptIncomingCall, answerSuccessResult, ensureLocalStream, appendLog,
      hid, hc, hs, hl, attachNewPeer_spec]
  | some i =>
    simp [acceptIncomingCall, answerSuccessResult, ensureLocalStream, appendLog,
      hid, hc, hs, hl, attachNewPeer_spec]

/-- `acceptIncomingCall` returns the state unchanged when no callId is set. -/
lemma answer_noop (w : World) (m : Bool) (hid : w.callId = none) :
    acceptIncomingCall w m = w := by
  simp [acceptIncomingCall, hid]

/-- `startOutgoingCall` only logs when the socket is not OPEN. -/
lemma dial_not_connected (w : World) (m : Bool)
    (h : (w.clientPresent && w.socketReady) = false) :
    startOutgoingCall w m = appendLog w "Cannot place call without signaling connection" := by
  simp [startOutgoingCall, h]

/-- `startOutgoingCall` only logs when the trimmed dial number is empty. -/
lemma dial_empty_number (w : World) (m : Bool)
    (hc : w.clientPresent = true) (hs : w.socketReady = true)
    (hn : (jsTrim w.dialNumber == "") = true) :
    startOutgoingCall w m = appendLog w "Enter a destination number before calling" := by
  simp [startOutgoingCall, hc, hs, hn]

/-- Every dial either leaves the peer heap and reference untouched, or
appends one live instance and points the reference at it. -/
lemma dial_frame (w : World) (m : Bool) :
    ((startOutgoingCall w m).peers = w.peers ∧ (startOutgoingCall w m).peerRef = w.peerRef)
    ∨ (∃ p : Peer, p.destroyed = false ∧
        (startOutgoingCall w m).peers = w.peers ++ [p] ∧
        (startOutgoingCall w m).peerRef = some w.peers.length) := by
  cases hcs : (w.clientPresent && w.socketReady) with
  | false =>
    left; rw [dial_not_connected w m hcs]; exact ⟨rfl, rfl⟩
  | true =>
    have hc : w.clientPresent = true := by
      cases h : w.clientPresent; · rw [h] at hcs; simp at hcs
      · rfl
    have hs : w.socketReady = true := by
      cases h : w.socketReady; · rw [h] at hcs; simp at hcs
      · rfl
    cases hn : (jsTrim w.dialNumber == "") with
    | true =>
      left; rw [dial_empty_number w m hc hs hn]; exact ⟨rfl, rfl⟩
    | false =>
      cases hl : w.localStream with
      | some i =>
        right
        refine ⟨{ initiator := true, callId := uuid w.fresh, received := w.queuedSignals, destroyed := false, listenersDetached := false }, rfl, ?_, ?_⟩ <;>
          simp [startOutgoingCall, ensureLocalStream, appendLog, hc, hs, hn, hl, attachNewPeer_spec]
      | none =>
        cases m with
        | false =>
          left
          constructor <;>
            simp [startOutgoingCall, ensureLocalStream, appendLog, hc, hs, hn, hl]
        | true =>
          right
          refine ⟨{ initiator := true, callId := uuid w.fresh, received := w.queuedSignals, destroyed := false, listenersDetached := false }, rfl, ?_, ?_⟩ <;>
            simp [startOutgoingCall, ensureLocalStream, appendLog, hc, hs, hn, hl, attachNewPeer_spec]

/-- Every answer either leaves the peer heap and reference untouched, or
appends one live instance and points the reference at it. -/
lemma answer_frame (w : World) (m : Bool) :
    ((acceptIncomingCall w m).peers = w.peers ∧ (acceptIncomingCall w m).peerRef = w.peerRef)
    ∨ (∃ p : Peer, p.destroyed = false ∧
        (acceptIncomingCall w m).peers = w.peers ++ [p] ∧
        (acceptIncomingCall w m).peerRef = some w.peers.length) := by
  cases hid : w.callId with
  | none => left; rw [answer_noop w m hid]; exact ⟨rfl, rfl⟩
  | some cid =>
    cases hl : w.localStream with
    | some i =>
      right
      refine ⟨{ initiator := false, callId := cid, received := w.queuedSignals, destroyed := false, listenersDetached := false }, rfl, ?_, ?_⟩ <;>
        (simp [acceptIncomingCall, ensureLocalStream, appendLog, hid, hl, attachNewPeer_spec]
         ; cases w.clientPresent <;> cases w.socketReady <;> simp)
    | none =>
      cases m with
      | false =>
        left
        constructor <;>
          simp [acceptIncomingCall, ensureLocalStream, appendLog, hid, hl]
      | true =>
        right
        refine ⟨{ initiator := false, callId := cid, received := w.queuedSignals, destroyed := false, listenersDetached := false }, rfl, ?_, ?_⟩ <;>
          (simp [acceptIncomingCall, ensureLocalStream, appendLog, hid, hl, attachNewPeer_spec]
           ; cases w.clientPresent <;> cases w.socketReady <;> simp)

/-- Hangup either throws (state unchanged) or nulls the peer reference,
destroying the referenced instance. -/
lemma hang_frame (w : World) :
    stepCtl w CtlAct.hang = w ∨
    ((stepCtl w CtlAct.hang).peerRef = none ∧
      (stepCtl w CtlAct.hang).peers = (cleanupPeer w).peers) := by
  cases hid : w.callId with
  | none => right; simp [stepCtl, hangup, hid]; exact ⟨rfl, rfl⟩
  | some cid =>
    cases hcp : w.clientPresent with
    | false => right; simp [stepCtl, hangup, hid, hcp]; exact ⟨rfl, rfl⟩
    | true =>
      cases hsr : w.socketReady with
      | false => left; simp [stepCtl, hangup, hid, hcp, hsr]
      | true => right; simp [stepCtl, hangup, hid, hcp, hsr]; exact ⟨rfl, rfl⟩

/-- A dial/answer issued while no instance is live restores `refInv`. -/
lemma refInv_of_frame (w w' : World) (hn : noLivePeer w)
    (hfr : (w'.peers = w.peers ∧ w'.peerRef = w.peerRef) ∨
      ∃ p : Peer, p.destroyed = false ∧ w'.peers = w.peers ++ [p] ∧
        w'.peerRef = some w.peers.length) :
    refInv w' := by
  cases hfr with
  | inl h =>
    intro j hj hlive
    rw [h.1] at hj hlive
    rw [hn j hj] at hlive
    simp at hlive
  | inr h =>
    obtain ⟨p, hp, hps, hr⟩ := h
    intro j hj hlive
    rw [hps] at hj hlive
    rw [hr]
    by_cases hjl : j < w.peers.length
    · rw [getD_append_lt _ _ _ j hjl] at hlive
      rw [hn j hjl] at hlive
      simp at hlive
    · have hj1 : j < w.peers.length + 1 := by simpa using hj
      have hj2 : j = w.peers.length := by omega
      subst hj2
      rfl

/-- A hangup (thrown or completed) preserves `refInv`. -/
lemma refInv_hang (w : World) (hi : refInv w) : refInv (stepCtl w CtlAct.hang) := by
  cases hang_frame w with
  | inl h => rw [h]; exact hi
  | inr h =>
    obtain ⟨hr, hps⟩ := h
    intro j hj hlive
    rw [hps] at hj hlive
    cases hpr : w.peerRef with
    | none =>
      have hcl : (cleanupPeer w).peers = w.peers := by simp [cleanupPeer, hpr]
      rw [hcl] at hj hlive
      have h2 := hi j hj hlive
      rw [hpr] at h2
      exact Option.noConfusion h2
    | some i =>
      have hcl : (cleanupPeer w).peers = destroyAt w.peers i := by simp [cleanupPeer, hpr]
      rw [hcl] at hj hlive
      rw [destroyAt_length] at hj
      by_cases hij : j = i
      · subst hij
        rw [destroyAt_getD_destroyed w.peers j hj] at hlive
        simp at hlive
      · rw [destroyAt_getD_ne w.peers j i hij] at hlive
        have h2 := hi j hj hlive
        rw [hpr] at h2
        injection h2 with h3
        exact absurd h3.symm hij

/-- Along any disciplined run, `refInv` is preserved. -/
lemma refInv_run : ∀ (w : World) (acts : List CtlAct) (w' : World),
    CtlRun w acts w' → refInv w → refInv w' := by
  intro w acts w' hr
  induction hr with
  | nil w => exact id
  | step w a acts w' hg _hrun ih =>
    intro hi
    apply ih
    cases a with
    | dial m => exact refInv_of_frame w _ hg (dial_frame w m)
    | answer m => exact refInv_of_frame w _ hg (answer_frame w m)
    | hang => exact refInv_hang w hi

/-- `refInv` implies at most one live instance. -/
lemma refInv_atMostOne (w : World) (hi : refInv w) : atMostOneLive w := by
  intro j k hj hk hlj hlk
  have h1 := hi j hj hlj
  have h2 := hi k hk hlk
  rw [h1] at h2
  injection h2

end Softphone

namespace Softphone

lemma appendLog_length (w : World) (m : String) :
    (appendLog w m).eventLog.length = min 50 (w.eventLog.length + 1) := by
  simp [appendLog, sliceLast]
  omega

lemma appendLog_le_50 (w : World) (m : String) :
    (appendLog w m).eventLog.length ≤ 50 := by
  rw [appendLog_length]
  omega

lemma foldl_appendLog_le (msgs : List String) :
    ∀ w : World, w.eventLog.length ≤ 50 →
      (msgs.foldl appendLog w).eventLog.length ≤ 50 := by
  induction msgs with
  | nil => intro w h; exact h
  | cons m t ih =>
    intro w _
    exact ih (appendLog w m) (appendLog_le_50 w m)

lemma appendLog_keep (w : World) (m : String) (h : w.eventLog.length < 50) :
    (appendLog w m).eventLog =
      w.eventLog ++ [{ id := w.fresh, message := m, timestamp := w.fresh }] := by
  simp only [appendLog, sliceLast]
  have h0 : w.eventLog.length - 49 = 0 := by omega
  rw [h0, List.drop_zero]

lemma appendLog_evict (w : World) (m : String) (h : w.eventLog.length = 50) :
    (appendLog w m).eventLog =
      w.eventLog.tail ++ [{ id := w.fresh, message := m, timestamp := w.fresh }] := by
  simp only [appendLog, sliceLast]
  have h0 : w.eventLog.length - 49 = 1 := by omega
  rw [h0, List.drop_one]

lemma deliverAt_getD_received (ps : List Peer) :
    ∀ i, i < ps.length → ∀ d,
      ((deliverAt ps i d).getD i default).received = (ps.getD i default).received ++ [d] := by
  induction ps with
  | nil => intro i hi; simp at hi
  | cons p t ih =>
    intro i hi d
    cases i with
    | zero => rfl
    | succ n =>
      simp only [deliverAt, List.getD_cons_succ]
      exact ih n (by simpa using hi) d

lemma hangup_ok_cases (w w' : World) (h : hangup w = Except.ok w') :
    w' = hangupFinish w ∨
    ∃ cid, w.callId = some cid ∧
      w' = hangupFinish { w with sent := w.sent ++ [OutMsg.callEnded cid] } := by
  cases hid : w.callId with
  | none =>
    left
    rw [hangup, hid] at h
    exact (Except.ok.injEq _ _).mp h |>.symm
  | some cid =>
    rw [hangup, hid] at h
    cases hcp : w.clientPresent with
    | false =>
      left
      rw [hcp] at h
      simp at h
      exact h.symm
    | true =>
      cases hsr : w.socketReady with
      | false => rw [hcp, hsr] at h; simp at h
      | true =>
        right
        rw [hcp, hsr] at h
        simp at h
        exact ⟨cid, rfl, h.symm⟩

lemma hangupFinish_released (v : World) :
    (hangupFinish v).callState = CallState.ended ∧ mediaReleased v (hangupFinish v) := by
  refine ⟨rfl, rfl, rfl, ?_, ?_⟩
  · exact (cleanupPeer_released v).2.2.1
  · exact (cleanupPeer_released v).2.2.2

end Softphone

namespace Softphone

/-- C1 (amended): after the transitions into `ended` or `error` that run
`cleanupPeer` — a completed `hangup`, an inbound `call.ended`, and an
inbound `call.error` — both stream references are null and every track of
the streams previously held is stopped.  The claim as stated is false for
the peer-error listener and the caught dial/answer error paths, which enter
`error` without releasing media (see `peer_error_keeps_streams`). -/
theorem terminal_transitions_release_media (w w' : World) (m : Option String) :
    (hangup w = Except.ok w' → w'.callState = CallState.ended ∧ mediaReleased w w') ∧
    ((handleSignalingEvent w SigEvent.callEnded).callState = CallState.ended ∧
      mediaReleased w (handleSignalingEvent w SigEvent.callEnded)) ∧
    ((handleSignalingEvent w (SigEvent.callError m)).callState = CallState.error ∧
      mediaReleased w (handleSignalingEvent w (SigEvent.callError m))) := by
  refine ⟨?_, ⟨rfl, rfl, rfl, ?_, ?_⟩, ⟨rfl, rfl, rfl, ?_, ?_⟩⟩
  · intro h
    cases hangup_ok_cases w w' h with
    | inl he => rw [he]; exact hangupFinish_released w
    | inr he =>
      obtain ⟨cid, _, he⟩ := he
      rw [he]
      exact hangupFinish_released { w with sent := w.sent ++ [OutMsg.callEnded cid] }
  · exact (cleanupPeer_released (appendLog w "Remote ended the call")).2.2.1
  · exact (cleanupPeer_released (appendLog w "Remote ended the call")).2.2.2
  · exact (cleanupPeer_released { appendLog w (m.getD "Call error") with callState := CallState.error, statusMessage := some (m.getD "Call error"), error := some (m.getD "Call error") }).2.2.1
  · exact (cleanupPeer_released { appendLog w (m.getD "Call error") with callState := CallState.error, statusMessage := some (m.getD "Call error"), error := some (m.getD "Call error") }).2.2.2

/-- Witness for C1: the hangup conjunct applied at `initWorld`. -/
theorem terminal_release_witness :
    (stepCtl initWorld CtlAct.hang).callState = CallState.ended ∧
    mediaReleased initWorld (stepCtl initWorld CtlAct.hang) :=
  (terminal_transitions_release_media initWorld (stepCtl initWorld CtlAct.hang) none).1 rfl

/-- Counterexample to C1 as stated: the peer `error` listener transitions
`callState` into `error` while `localStream` stays non-null and its track is
not stopped. -/
theorem peer_error_keeps_streams :
    (onPeerError peerErrorW "boom").callState = CallState.error ∧
    (onPeerError peerErrorW "boom").localStream = some 0 ∧
    allStoppedAt (onPeerError peerErrorW "boom").streams (some 0) = false :=
  ⟨rfl, rfl, rfl⟩

/-- C2: on a state with a non-null callId whose signaling client is present
but whose socket is not OPEN, `hangup` throws `Signaling socket not
connected` from `SignalingClient.send` before any cleanup runs, so media is
not stopped and `callState` never becomes `ended` — the code contradicts
the claim (and its own stated cancellation policy). -/
theorem hangup_throws_on_dead_socket :
    hangup deadSocketW = Except.error sendErrMsg ∧
    deadSocketW.callId = some "call-2" ∧ deadSocketW.clientPresent = true ∧
    deadSocketW.socketReady = false :=
  ⟨rfl, rfl, rfl, rfl⟩

end Softphone

namespace Softphone

/-- C3 (amended): along every run of dial/answer/hangup in which dial and
answer are only invoked while no live peer instance exists, at most one
live peer-negotiation instance exists.  Without that discipline the claim
as stated is false: dial does not check the call state and overwrites the
peer reference, leaking a live instance (see `double_dial_leaks_peer`). -/
theorem at_most_one_live_peer (w : World) (acts : List CtlAct) (w' : World)
    (hw : refInv w) (hr : CtlRun w acts w') : atMostOneLive w' :=
  refInv_atMostOne w' (refInv_run w acts w' hr hw)

/-- Witness for C3: the guarded-run theorem applied to the one-step run
`[hang]` from `initWorld`. -/
theorem at_most_one_live_peer_witness : atMostOneLive (stepCtl initWorld CtlAct.hang) :=
  at_most_one_live_peer initWorld [CtlAct.hang] (stepCtl initWorld CtlAct.hang)
    (fun j hj _ => absurd hj (Nat.not_lt_zero j))
    (CtlRun.step initWorld CtlAct.hang [] (stepCtl initWorld CtlAct.hang) trivial
      (CtlRun.nil (stepCtl initWorld CtlAct.hang)))

/-- Counterexample to C3 as stated: two consecutive dials from a connected
state leave two undestroyed instances with listeners attached. -/
theorem double_dial_leaks_peer :
    ¬ atMostOneLive (stepCtl (stepCtl connectedW (CtlAct.dial true)) (CtlAct.dial true)) ∧
    (stepCtl (stepCtl connectedW (CtlAct.dial true)) (CtlAct.dial true)).peers.length = 2 ∧
    ((stepCtl (stepCtl connectedW (CtlAct.dial true)) (CtlAct.dial true)).peers.getD 0 default).destroyed = false ∧
    ((stepCtl (stepCtl connectedW (CtlAct.dial true)) (CtlAct.dial true)).peers.getD 1 default).destroyed = false ∧
    ((stepCtl (stepCtl connectedW (CtlAct.dial true)) (CtlAct.dial true)).peers.getD 0 default).listenersDetached = false :=
  ⟨fun h => Nat.zero_ne_one (h 0 1 (by decide) (by decide) rfl rfl), rfl, rfl, rfl, rfl⟩

/-- C4 (amended): `startOutgoingCall` refuses (log only) when the socket
is not OPEN, refuses (log only, no send, call state unchanged) when the
trimmed dial number is empty, and otherwise performs the full dial
transition regardless of the current `callState` — the claim's guard that
`callState` be `idle` or `ended` is not checked by the code (see
`dial_ignores_call_state`). -/
theorem dial_transition_guards (w : World) (m : Bool) :
    ((w.clientPresent && w.socketReady) = false →
      startOutgoingCall w m = appendLog w "Cannot place call without signaling connection") ∧
    ((w.clientPresent && w.socketReady) = true → (jsTrim w.dialNumber == "") = true →
      startOutgoingCall w m = appendLog w "Enter a destination number before calling" ∧
      (appendLog w "Enter a destination number before calling").callState = w.callState ∧
      (appendLog w "Enter a destination number before calling").sent = w.sent ∧
      (appendLog w "Enter a destination number before calling").eventLog.length =
        min 50 (w.eventLog.length + 1)) ∧
    (w.clientPresent = true → w.socketReady = true → (jsTrim w.dialNumber == "") = false →
      startOutgoingCall w true = dialSuccessResult w) := by
  refine ⟨fun h => dial_not_connected w m h, fun hcs hn => ?_, fun hc hs hn => dial_success w hc hs hn⟩
  have hc : w.clientPresent = true := by
    cases h : w.clientPresent
    · rw [h] at hcs; simp at hcs
    · rfl
  have hs : w.socketReady = true := by
    cases h : w.socketReady
    · rw [h] at hcs; simp at hcs
    · rfl
  exact ⟨dial_empty_number w m hc hs hn, rfl, rfl, appendLog_length w _⟩

/-- Witness for C4: the success conjunct at a connected world and the
no-connection conjunct at `initWorld`. -/
theorem dial_guards_witness :
    startOutgoingCall connectedW true = dialSuccessResult connectedW ∧
    startOutgoingCall initWorld true =
      appendLog initWorld "Cannot place call without signaling connection" :=
  ⟨(dial_transition_guards connectedW true).2.2 rfl rfl rfl,
   (dial_transition_guards initWorld true).1 rfl⟩

/-- Counterexample to C4 as stated: a dial issued while already `inCall`
still performs the transition and sends `call.initiate`. -/
theorem dial_ignores_call_state :
    inCallDialW.callState = CallState.inCall ∧
    (startOutgoingCall inCallDialW true).callState = CallState.connecting ∧
    (startOutgoingCall inCallDialW true).sent = [OutMsg.callInitiate "uuid-0" "100"] :=
  ⟨rfl, rfl, rfl⟩

/-- C5 (amended): `acceptIncomingCall` has no effect when `callId` is
null, and performs the full answer transition whenever `callId` is set —
the code never checks that `callState` is `ringing` (see
`answer_ignores_call_state`). -/
theorem answer_transition_guards (w : World) (m : Bool) :
    (w.callId = none → acceptIncomingCall w m = w) ∧
    (∀ cid, w.callId = some cid → w.clientPresent = true → w.socketReady = true →
      acceptIncomingCall w true = answerSuccessResult w cid) :=
  ⟨fun h => answer_noop w m h, fun cid hid hc hs => answer_success w cid hid hc hs⟩

/-- Witness for C5: the no-op conjunct at `initWorld` and the success
conjunct at a world carrying a callId. -/
theorem answer_guards_witness :
    acceptIncomingCall initWorld true = initWorld ∧
    acceptIncomingCall idleWithCallIdW true = answerSuccessResult idleWithCallIdW "call-9" :=
  ⟨(answer_transition_guards initWorld true).1 rfl,
   (answer_transition_guards idleWithCallIdW true).2 "call-9" rfl rfl rfl⟩

/-- Counterexample to C5 as stated: answering from `idle` (not `ringing`)
with a callId set creates the peer and sends `call.answer`. -/
theorem answer_ignores_call_state :
    idleWithCallIdW.callState = CallState.idle ∧
    (acceptIncomingCall idleWithCallIdW true).sent = [OutMsg.callAnswer "call-9"] ∧
    (acceptIncomingCall idleWithCallIdW true).callState = CallState.connecting :=
  ⟨rfl, rfl, rfl⟩

end Softphone

namespace Softphone

lemma hangup_hangupFinish (v : World) :
    hangup (hangupFinish v) = Except.ok (appendLog (hangupFinish v) "Call ended") := rfl

/-- C7 (amended): a second `hangup` after a completed one performs no
transport send and leaves every call-session field (state, callId, streams,
peer reference, status) unchanged, but it does append one more log entry
each time — so the claim's `no additional log entry` part is false (see
`second_hangup_appends_log`); `disconnectSignaling` is idempotent. -/
theorem hangup_disconnect_idempotence (w w' : World) :
    (hangup w = Except.ok w' →
      hangup w' = Except.ok (appendLog w' "Call ended") ∧
      (appendLog w' "Call ended").sent = w'.sent ∧
      (appendLog w' "Call ended").callState = w'.callState ∧
      (appendLog w' "Call ended").callId = w'.callId ∧
      (appendLog w' "Call ended").statusMessage = w'.statusMessage ∧
      (appendLog w' "Call ended").localStream = w'.localStream ∧
      (appendLog w' "Call ended").remoteStream = w'.remoteStream ∧
      (appendLog w' "Call ended").peerRef = w'.peerRef ∧
      (appendLog w' "Call ended").eventLog.length = min 50 (w'.eventLog.length + 1)) ∧
    disconnectSignaling (disconnectSignaling w) = disconnectSignaling w := by
  constructor
  · intro h
    cases hangup_ok_cases w w' h with
    | inl he =>
      subst he
      exact ⟨hangup_hangupFinish w, rfl, rfl, rfl, rfl, rfl, rfl, rfl, appendLog_length _ _⟩
    | inr he =>
      obtain ⟨cid, _, he⟩ := he
      subst he
      exact ⟨hangup_hangupFinish _, rfl, rfl, rfl, rfl, rfl, rfl, rfl, appendLog_length _ _⟩
  · rfl

/-- Witness for C7: the second-hangup conjunct applied after a first
hangup from a mid-call state. -/
theorem hangup_idem_witness :
    hangup (stepCtl inCallW CtlAct.hang) =
      Except.ok (appendLog (stepCtl inCallW CtlAct.hang) "Call ended") :=
  ((hangup_disconnect_idempotence inCallW (stepCtl inCallW CtlAct.hang)).1 rfl).1

/-- Counterexample to C7 as stated: the second hangup in a row grows the
event log by one entry. -/
theorem second_hangup_appends_log :
    hangup inCallW = Except.ok (stepCtl inCallW CtlAct.hang) ∧
    hangup (stepCtl inCallW CtlAct.hang) =
      Except.ok (stepCtl (stepCtl inCallW CtlAct.hang) CtlAct.hang) ∧
    (stepCtl (stepCtl inCallW CtlAct.hang) CtlAct.hang).eventLog.length =
      (stepCtl inCallW CtlAct.hang).eventLog.length + 1 :=
  ⟨rfl, rfl, rfl⟩

end Softphone

namespace Softphone

/-- C6: an inbound `signal` payload is buffered exactly when the peer
reference is null and delivered to the referenced instance exactly when it
is set; dial and answer hand the new instance exactly the buffered payloads
in receipt order and empty the buffer, so later live payloads append after
them. -/
theorem signal_buffer_protocol (w : World) (d : SignalData) (i : Nat) :
    (w.peerRef = none → handleSignalingEvent w (SigEvent.signal (some d)) =
      { w with queuedSignals := w.queuedSignals ++ [d] }) ∧
    (w.peerRef = some i → handleSignalingEvent w (SigEvent.signal (some d)) =
      { w with peers := deliverAt w.peers i d }) ∧
    (w.peerRef = some i → i < w.peers.length →
      ((handleSignalingEvent w (SigEvent.signal (some d))).peers.getD i default).received =
        (w.peers.getD i default).received ++ [d] ∧
      (handleSignalingEvent w (SigEvent.signal (some d))).queuedSignals = w.queuedSignals) ∧
    (w.clientPresent = true → w.socketReady = true → (jsTrim w.dialNumber == "") = false →
      ((startOutgoingCall w true).peers.getD w.peers.length default).received = w.queuedSignals ∧
      (startOutgoingCall w true).queuedSignals = [] ∧
      (startOutgoingCall w true).peerRef = some w.peers.length) ∧
    (∀ cid, w.callId = some cid → w.clientPresent = true → w.socketReady = true →
      ((acceptIncomingCall w true).peers.getD w.peers.length default).received = w.queuedSignals ∧
      (acceptIncomingCall w true).queuedSignals = [] ∧
      (acceptIncomingCall w true).peerRef = some w.peers.length) := by
  refine ⟨?_, ?_, ?_, ?_, ?_⟩
  · intro h
    simp [handleSignalingEvent, peerSignal, h]
  · intro h
    simp [handleSignalingEvent, peerSignal, h]
  · intro h hlen
    constructor
    · simp only [handleSignalingEvent, peerSignal, h]
      exact deliverAt_getD_received w.peers i hlen d
    · simp [handleSignalingEvent, peerSignal, h]
  · intro hc hs hn
    rw [dial_success w hc hs hn]
    refine ⟨?_, rfl, rfl⟩
    simp only [dialSuccessResult]
    rw [getD_append_self]
  · intro cid hid hc hs
    rw [answer_success w cid hid hc hs]
    refine ⟨?_, rfl, rfl⟩
    simp only [answerSuccessResult]
    rw [getD_append_self]

/-- Witness for C6: three buffered payloads are handed to the peer in
order by a dial, and a payload arriving with no peer is buffered. -/
theorem signal_buffer_witness :
    ((startOutgoingCall bufferedW true).peers.getD bufferedW.peers.length default).received
      = bufferedW.queuedSignals ∧
    (startOutgoingCall bufferedW true).queuedSignals = [] ∧
    handleSignalingEvent bufferedW (SigEvent.signal (some 7)) =
      { bufferedW with queuedSignals := bufferedW.queuedSignals ++ [7] } :=
  ⟨((signal_buffer_protocol bufferedW 7 0).2.2.2.1 rfl rfl rfl).1,
   ((signal_buffer_protocol bufferedW 7 0).2.2.2.1 rfl rfl rfl).2.1,
   (signal_buffer_protocol bufferedW 7 0).1 rfl⟩

/-- C10: an inbound `signal` event with an absent/undefined data field
leaves the whole state unchanged: nothing is delivered, buffered or
logged. -/
theorem signal_undefined_data_noop (w : World) :
    handleSignalingEvent w (SigEvent.signal none) = w := rfl

end Softphone

namespace SignalingWS

/-- C8: `SignalingClient.connect` resolves immediately, opening no new
transport, when the socket is OPEN, and returns the same pending promise,
opening no new transport, whenever a connection attempt is in flight. -/
theorem connect_single_flight (c : ClientState) (hw : Bool) (f p : Nat) :
    (c.socket = some ReadyState.wsOpen →
      connect c hw f = (ConnectOutcome.resolvedImmediately, c, false)) ∧
    (c.socket ≠ some ReadyState.wsOpen → c.connectionPromise = some p →
      connect c hw f = (ConnectOutcome.sharedPending p, c, false)) := by
  constructor
  · intro h
    simp [connect, h]
  · intro h1 h2
    cases hs : c.socket with
    | none => simp [connect, hs, h2]
    | some r =>
      cases r with
      | wsOpen => exact absurd hs h1
      | wsConnecting => simp [connect, hs, h2]
      | wsClosing => simp [connect, hs, h2]
      | wsClosed => simp [connect, hs, h2]

/-- Witness for C8: both conjuncts at concrete client states. -/
theorem connect_single_flight_witness :
    connect { socket := some ReadyState.wsOpen, connectionPromise := none } true 5 =
      (ConnectOutcome.resolvedImmediately,
        { socket := some ReadyState.wsOpen, connectionPromise := none }, false) ∧
    connect { socket := some ReadyState.wsConnecting, connectionPromise := some 3 } true 5 =
      (ConnectOutcome.sharedPending 3,
        { socket := some ReadyState.wsConnecting, connectionPromise := some 3 }, false) :=
  ⟨(connect_single_flight { socket := some ReadyState.wsOpen, connectionPromise := none } true 5 0).1 rfl,
   (connect_single_flight { socket := some ReadyState.wsConnecting, connectionPromise := some 3 } true 5 3).2
     (by simp) rfl⟩

end SignalingWS

namespace Softphone

/-- C9: any sequence of appends from the initial empty log stays within
50 entries; below the cap an append keeps all entries and adds the new one
at the newest end, and at the cap it evicts exactly the oldest entry. -/
theorem event_log_bounded (w : World) (m : String) (msgs : List String) :
    ((msgs.foldl appendLog initWorld).eventLog.length ≤ 50) ∧
    (w.eventLog.length < 50 →
      (appendLog w m).eventLog =
        w.eventLog ++ [{ id := w.fresh, message := m, timestamp := w.fresh }]) ∧
    (w.eventLog.length = 50 →
      (appendLog w m).eventLog =
        w.eventLog.tail ++ [{ id := w.fresh, message := m, timestamp := w.fresh }]) :=
  ⟨foldl_appendLog_le msgs initWorld (by simp [initWorld]),
   appendLog_keep w m, appendLog_evict w m⟩

/-- Witness for C9: eviction at a log holding 50 entries and a plain
append on the empty log. -/
theorem event_log_bounded_witness :
    (appendLog { initWorld with eventLog := List.replicate 50 { id := 0, message := "x", timestamp := 0 } } "y").eventLog =
      (List.replicate 50 { id := 0, message := "x", timestamp := 0 } : List LogEntry).tail ++
        [{ id := 0, message := "y", timestamp := 0 }] ∧
    (appendLog initWorld "y").eventLog = [{ id := 0, message := "y", timestamp := 0 }] :=
  ⟨(event_log_bounded { initWorld with eventLog := List.replicate 50 { id := 0, message := "x", timestamp := 0 } } "y" []).2.2 (by simp),
   (event_log_bounded initWorld "y" []).2.1 (by simp [initWorld])⟩

end Softphone
